import Mathlib

/-!
Verification of the pari-mutuel betting ledger in `api/router.go`
(package `handler`).

The embedding is shallow and executable:
* Go `int64` values are modelled as `Int` (the ledger's arithmetic stays
  far from the 64-bit boundary on all inputs the claims consider, so no
  wrap-around modelling is needed);
* Go maps (`map[int64]*Game` etc.) are modelled as association lists with
  first-match lookup; `insertMap` models Go map assignment
  (replace-if-present, append-if-absent).  Pointer updates into the store
  (`w.Balance -= stake`, `g.HomePool += stake`) become `insertMap` of the
  updated record at its key;
* Go `float64` arithmetic is modelled two ways, matching what each use
  needs: the odds (pure display fractions, tolerance-qualified in the
  spec) are exact rationals (division in `ℚ`), while the settlement
  payout — where whole tokens hinge on the final bit — is modelled
  bit-exactly with integer arithmetic: `floatSig` rounds an exact
  fraction to the nearest IEEE-754 binary64 value (round-to-nearest-
  even, 53-bit significand; exponent unbounded, which coincides with
  binary64 on the non-overflowing range containing every operand of the
  payout path), and `payoutNat` chains the conversions, the division,
  the multiplication and the final `int64` truncation exactly as the
  source expression does;
* timestamps (`time.Now()...`) carry no ledger semantics and are modelled
  by the empty string.
-/

namespace Handler

/-- Go: `type GameStatus string`. -/
abbrev GameStatus := String

/-- Go: `StatusPre GameStatus = "PreGame"`. -/
def StatusPre : GameStatus := "PreGame"

/-- Go: `StatusDone GameStatus = "Settled"`. -/
def StatusDone : GameStatus := "Settled"

/-- Go: `type Selection string`.  Selections are arbitrary strings; only
`home`/`away`/`draw` are meaningful, but the code stores whatever it gets. -/
abbrev Selection := String

def SelHome : Selection := "home"
def SelAway : Selection := "away"
def SelDraw : Selection := "draw"

/-- Go struct `Game`.  The three `...Odds` fields are `float64` in the
source; they are modelled as `ℚ` (see the file header). -/
structure Game where
  id : Int
  sport : String
  home : String
  away : String
  startTime : String
  status : GameStatus
  result : Option Selection
  homePool : Int
  awayPool : Int
  drawPool : Int
  homeOdds : ℚ
  awayOdds : ℚ
  drawOdds : ℚ
deriving DecidableEq, Repr

/-- Go struct `Bet`. -/
structure Bet where
  id : Int
  userID : Int
  gameID : Int
  selection : Selection
  stake : Int
  placedAt : String
deriving DecidableEq, Repr

/-- Go struct `Wallet`. -/
structure Wallet where
  userID : Int
  balance : Int
deriving DecidableEq, Repr

/-- First-match lookup in an association list: models Go map indexing
`m[k]` together with its `ok` flag. -/
def findMap (k : Int) : List (Int × α) → Option α
  | [] => none
  | (k', v) :: rest => if k' = k then some v else findMap k rest

/-- Go map assignment `m[k] = v`: replace the binding if the key is
present, append it otherwise. -/
def insertMap (k : Int) (v : α) : List (Int × α) → List (Int × α)
  | [] => [(k, v)]
  | (k', v') :: rest =>
      if k' = k then (k', v) :: rest else (k', v') :: insertMap k v rest

/-- Go struct `store` (without the mutex: every operation runs while
holding the single lock, so operations are modelled as sequential
state-to-state functions). -/
structure Store where
  games : List (Int × Game)
  bets : List (Int × Bet)
  wallets : List (Int × Wallet)
  nextBet : Int
  adminKey : String
deriving DecidableEq, Repr

/-- The error strings produced by `fmt.Errorf` in `placeBet`/`settle`. -/
inductive Err where
  | userNotFound
  | badStake
  | insufficientBalance
  | gameNotFound
  | gameSettled
  | badSelection
  | forbidden
  | alreadySettled
deriving DecidableEq, Repr

deriving instance DecidableEq for Except

/-- Seed game 101 from `newStore()` (pools 100/100/0). -/
def game101 : Game :=
  { id := 101, sport := "Flag Football", home := "Welsh Fam Whirls",
    away := "Lewis Chicks", startTime := "", status := StatusPre,
    result := none, homePool := 100, awayPool := 100, drawPool := 0,
    homeOdds := 0, awayOdds := 0, drawOdds := 0 }

/-- Seed game 102 from `newStore()` (pools 150/120/30). -/
def game102 : Game :=
  { id := 102, sport := "Soccer", home := "Alumni",
    away := "Dillon", startTime := "", status := StatusPre,
    result := none, homePool := 150, awayPool := 120, drawPool := 30,
    homeOdds := 0, awayOdds := 0, drawOdds := 0 }

/-- Seed game 103 from `newStore()` (pools 150/120/30). -/
def game103 : Game :=
  { id := 103, sport := "Volleyball", home := "Cat Food",
    away := "Kiss My Ace", startTime := "", status := StatusPre,
    result := none, homePool := 150, awayPool := 120, drawPool := 30,
    homeOdds := 0, awayOdds := 0, drawOdds := 0 }

/-- Go `newStore()`: the seeded initial ledger (wallet for user 1 with
1000 tokens; games 101, 102, 103).  Start times come from `time.Now` and
are modelled as `""`. -/
def newStore : Store :=
  { games := [ (101, game101), (102, game102), (103, game103) ]
  , bets := []
  , wallets := [ (1, { userID := 1, balance := 1000 }) ]
  , nextBet := 1
  , adminKey := "letmein" }

/-- The tail of `placeBet`'s success path: create the `Bet` from the
current counter, record it, advance the counter, and write back the
updated game.  (The wallet was already written back before the selection
switch, exactly as in the source.) -/
def finishBet (s : Store) (userID gameID : Int) (sel : Selection) (stake : Int)
    (w : Wallet) (g : Game) : Store × Except Err (Bet × Wallet × Game) :=
  let b : Bet := { id := s.nextBet, userID := userID, gameID := gameID,
                   selection := sel, stake := stake, placedAt := "" }
  ({ s with games := insertMap gameID g s.games,
            bets := insertMap b.id b s.bets,
            nextBet := s.nextBet + 1 },
   Except.ok (b, w, g))

/-- Go `(s *store) placeBet`.  Faithful to the source, including the
order of operations: the wallet debit (`w.Balance -= stake`, a pointer
update into the store) happens BEFORE the selection switch, so the
`default: bad_selection` branch returns an error with the debit already
applied to the store. -/
def placeBet (s : Store) (userID gameID : Int) (sel : Selection)
    (stake : Int) : Store × Except Err (Bet × Wallet × Game) :=
  match findMap userID s.wallets with
  | none => (s, Except.error Err.userNotFound)
  | some w =>
    if stake ≤ 0 then (s, Except.error Err.badStake)
    else if w.balance < stake then (s, Except.error Err.insufficientBalance)
    else
      match findMap gameID s.games with
      | none => (s, Except.error Err.gameNotFound)
      | some g =>
        if g.status = StatusDone then (s, Except.error Err.gameSettled)
        else
          let w' : Wallet := { w with balance := w.balance - stake }
          let s1 : Store := { s with wallets := insertMap userID w' s.wallets }
          if sel = SelHome then
            finishBet s1 userID gameID sel stake w'
              { g with homePool := g.homePool + stake }
          else if sel = SelAway then
            finishBet s1 userID gameID sel stake w'
              { g with awayPool := g.awayPool + stake }
          else if sel = SelDraw then
            finishBet s1 userID gameID sel stake w'
              { g with drawPool := g.drawPool + stake }
          else (s1, Except.error Err.badSelection)

/-- Round `a / b` (with `b > 0`) to the nearest integer, ties to even —
the IEEE-754 default rounding direction. -/
def natRoundNearestEven (a b : ℕ) : ℕ :=
  let n := a / b
  let r := a % b
  if 2 * r < b then n
  else if b < 2 * r then n + 1
  else if n % 2 = 0 then n else n + 1

/-- `⌊log₂ n⌋` for `n ≥ 1` (0 at 0), by fueled halving (`fuel = n`
always suffices), so that the kernel can evaluate it. -/
def natLog2Aux : ℕ → ℕ → ℕ
  | 0, _ => 0
  | fuel + 1, n => if n ≤ 1 then 0 else natLog2Aux fuel (n / 2) + 1

def natLog2 (n : ℕ) : ℕ := natLog2Aux n n

/-- For `1 ≤ n < d`: the smallest `c` with `d ≤ n·2^c`, by fueled
doubling (`fuel = d` always suffices). -/
def clog2Aux : ℕ → ℕ → ℕ → ℕ → ℕ
  | 0, _, _, acc => acc
  | fuel + 1, n, d, acc =>
      if d ≤ n then acc else clog2Aux fuel (2 * n) d (acc + 1)

def ratNegExp (n d : ℕ) : ℕ := clog2Aux d n d 0

/-- The binade of a positive fraction `n / d`: the `e` with
`2^e ≤ n/d < 2^(e+1)`. -/
def binade (n d : ℕ) : ℤ :=
  if d ≤ n then (natLog2 (n / d) : ℤ) else -(ratNegExp n d : ℤ)

/-- Round the positive fraction `n / d` to the IEEE-754 binary64 grid:
the result `(sig, e)` denotes the value `sig · 2^(e-52)`, a 53-bit
significand at the fraction's own binade, rounded to nearest with ties
to even.  The exponent is unbounded, so this coincides with binary64
wherever no overflow or underflow occurs — which covers every operand
of the settlement path. -/
def floatSig (n d : ℕ) : ℕ × ℤ :=
  if 0 ≤ 52 - binade n d then
    (natRoundNearestEven (n * 2 ^ (52 - binade n d).toNat) d, binade n d)
  else
    (natRoundNearestEven n (d * 2 ^ (binade n d - 52).toNat), binade n d)

/-- The exact fraction represented by a significand/exponent pair. -/
def floatFrac (p : ℕ × ℤ) : ℕ × ℕ :=
  if 0 ≤ p.2 - 52 then (p.1 * 2 ^ (p.2 - 52).toNat, 1)
  else (p.1, 2 ^ (52 - p.2).toNat)

/-- Magnitude of Go's `int64(float64(st) / float64(wp) * float64(t))`
for non-negative operands, modelled operation by operation: each
operand is rounded to the nearest double (exact below 2^53), the
division result is rounded once, the product with the converted total
is rounded once, and the final `int64` conversion truncates.  Division
by zero — impossible in the settlement path, which returns before the
loop when `winnerPool == 0` — is mapped to 0. -/
def payoutNat (st wp t : ℕ) : ℕ :=
  if st = 0 ∨ wp = 0 ∨ t = 0 then 0
  else
    let a := floatFrac (floatSig st 1)
    let b := floatFrac (floatSig wp 1)
    let c := floatFrac (floatSig t 1)
    let share := floatFrac (floatSig (a.1 * b.2) (a.2 * b.1))
    let prod := floatSig (share.1 * c.1) (share.2 * c.2)
    if 0 ≤ prod.2 - 52 then prod.1 * 2 ^ (prod.2 - 52).toNat
    else prod.1 / 2 ^ (52 - prod.2).toNat

/-- Go: `share := float64(b.Stake) / float64(winnerPool);
payout := int64(share * float64(total))`.  IEEE-754 rounding and the
`int64` truncation are sign-symmetric, so the sign is factored out and
the magnitude is computed bit-exactly by `payoutNat`.  Because of the
intermediate roundings this can differ from the exact
`⌊stake·total / winnerPool⌋` — e.g. stake 1, winner pool 49, total 294
gives 5, not 6. -/
def payout (stake winnerPool total : Int) : Int :=
  stake.sign * winnerPool.sign * total.sign *
    (payoutNat stake.natAbs winnerPool.natAbs total.natAbs : ℤ)

/-- The `switch result` in `settle` that picks the winning pool; a result
outside `home`/`away`/`draw` hits no case and leaves `winnerPool = 0`. -/
def winnerPoolFor (g : Game) (result : Selection) : Int :=
  if result = SelHome then g.homePool
  else if result = SelAway then g.awayPool
  else if result = SelDraw then g.drawPool
  else 0

/-- The payout loop of `settle` (`for _, b := range s.bets`), threading
the wallets map.  Go would nil-dereference if a winning bet's wallet were
missing; the embedding skips the credit in that (unreachable, see the
reachability invariant below) case. -/
def settleLoop (gameID : Int) (result : Selection) (winnerPool total : Int) :
    List (Int × Bet) → List (Int × Wallet) → List (Int × Wallet)
  | [], ws => ws
  | (_, b) :: rest, ws =>
      let ws' :=
        if b.gameID ≠ gameID then ws
        else if b.selection = result then
          match findMap b.userID ws with
          | some w =>
              insertMap b.userID
                { w with balance := w.balance + payout b.stake winnerPool total } ws
          | none => ws
        else ws
      settleLoop gameID result winnerPool total rest ws'

/-- Go `(s *store) settle`. -/
def settle (s : Store) (adminKey : String) (gameID : Int)
    (result : Selection) : Store × Except Err Game :=
  if adminKey ≠ s.adminKey then (s, Except.error Err.forbidden)
  else
    match findMap gameID s.games with
    | none => (s, Except.error Err.gameNotFound)
    | some g =>
      if g.status = StatusDone then (s, Except.error Err.alreadySettled)
      else
        let g' : Game := { g with status := StatusDone, result := some result }
        let s1 : Store := { s with games := insertMap gameID g' s.games }
        let total : Int := g.homePool + g.awayPool + g.drawPool
        let winnerPool : Int := winnerPoolFor g result
        if winnerPool = 0 then (s1, Except.ok g')
        else
          ({ s1 with wallets := settleLoop gameID result winnerPool total s1.bets s1.wallets },
           Except.ok g')

/-- Go `addOdds(g *Game)`: derive implied odds from the pools.  The
source uses `float64` division; the embedding uses exact division in
`ℚ`. -/
def addOdds (g : Game) : Game :=
  let total : ℚ := ((g.homePool + g.awayPool + g.drawPool : Int) : ℚ)
  if total ≤ 0 then { g with homeOdds := 0, awayOdds := 0, drawOdds := 0 }
  else
    { g with homeOdds := (g.homePool : ℚ) / total,
             awayOdds := (g.awayPool : ℚ) / total,
             drawOdds := (g.drawPool : ℚ) / total }

/-!  ## Association-map lemmas -/

theorem findMap_insertMap (k k' : Int) (v : α) (m : List (Int × α)) :
    findMap k (insertMap k' v m) = if k' = k then some v else findMap k m := by
  induction m with
  | nil => simp [findMap, insertMap]
  | cons hd tl ih =>
      obtain ⟨k₀, v₀⟩ := hd
      by_cases h1 : k₀ = k' <;> by_cases h2 : k' = k <;>
        simp_all [findMap, insertMap]

theorem findMap_insertMap_self (k : Int) (v : α) (m : List (Int × α)) :
    findMap k (insertMap k v m) = some v := by
  rw [findMap_insertMap]; simp

theorem findMap_insertMap_ne (k k' : Int) (v : α) (m : List (Int × α))
    (h : k' ≠ k) : findMap k (insertMap k' v m) = findMap k m := by
  rw [findMap_insertMap]; simp [h]

theorem isSome_findMap_insertMap (k k' : Int) (v : α) (m : List (Int × α))
    (h : (findMap k m).isSome = true) :
    (findMap k (insertMap k' v m)).isSome = true := by
  rw [findMap_insertMap]
  split <;> simp_all

theorem mem_insertMap (k : Int) (v : α) (m : List (Int × α)) (p : Int × α)
    (h : p ∈ insertMap k v m) : p = (k, v) ∨ p ∈ m := by
  induction m with
  | nil => simpa [insertMap] using h
  | cons hd tl ih =>
      obtain ⟨k₀, v₀⟩ := hd
      by_cases h1 : k₀ = k <;> simp_all [insertMap] <;> tauto

/-!  ## C1 -/

/-- C1: the claim that every failing `PlaceBet` leaves the ledger
unchanged is violated by the code for `InvalidSelection`: `placeBet`
debits the wallet (`w.Balance -= stake`) before the selection switch, so
the `bad_selection` error return leaves the debit in the store.  At the
seeded store, `PlaceBet(1, 101, "banana", 100)` returns `bad_selection`
yet drops wallet 1 from 1000 to 900 tokens. -/
theorem c1_invalidSelection_error_leaves_wallet_debited :
    (placeBet newStore 1 101 "banana" 100).2 = Except.error Err.badSelection ∧
    findMap 1 newStore.wallets = some { userID := 1, balance := 1000 } ∧
    findMap 1 (placeBet newStore 1 101 "banana" 100).1.wallets =
      some { userID := 1, balance := 900 } := by
  refine ⟨rfl, rfl, rfl⟩

/-!  ## C4 -/

/-- C4: odds well-formedness of `addOdds`.  For non-negative pools: if
the total is zero all three odds are 0; otherwise each odds value is its
pool divided by the total and the three odds sum to exactly 1 (the
source divides `float64` values; the embedding divides exactly in `ℚ`,
where the tolerance is 0). -/
theorem c4_addOdds_wellFormed (g : Game)
    (hh : 0 ≤ g.homePool) (ha : 0 ≤ g.awayPool) (hd : 0 ≤ g.drawPool) :
    (g.homePool + g.awayPool + g.drawPool = 0 →
      (addOdds g).homeOdds = 0 ∧ (addOdds g).awayOdds = 0 ∧
      (addOdds g).drawOdds = 0) ∧
    (g.homePool + g.awayPool + g.drawPool ≠ 0 →
      (addOdds g).homeOdds =
        (g.homePool : ℚ) / ((g.homePool + g.awayPool + g.drawPool : Int) : ℚ) ∧
      (addOdds g).awayOdds =
        (g.awayPool : ℚ) / ((g.homePool + g.awayPool + g.drawPool : Int) : ℚ) ∧
      (addOdds g).drawOdds =
        (g.drawPool : ℚ) / ((g.homePool + g.awayPool + g.drawPool : Int) : ℚ) ∧
      (addOdds g).homeOdds + (addOdds g).awayOdds + (addOdds g).drawOdds = 1) := by
  constructor
  · intro h0
    simp [addOdds, h0]
  · intro hne
    have htpos : 0 < g.homePool + g.awayPool + g.drawPool := by omega
    have hq : ¬ ((g.homePool : ℚ) + (g.awayPool : ℚ) + (g.drawPool : ℚ) ≤ 0) := by
      push_neg
      exact_mod_cast htpos
    have hq0 : (g.homePool : ℚ) + (g.awayPool : ℚ) + (g.drawPool : ℚ) ≠ 0 := by
      intro hc
      exact hq (le_of_eq hc)
    refine ⟨?_, ?_, ?_, ?_⟩ <;> simp only [addOdds] <;> push_cast <;>
      rw [if_neg hq] <;> push_cast <;> try rfl
    rw [div_add_div_same, div_add_div_same, div_eq_one_iff_eq hq0]

/-- Witness for C4 at the seeded game 101 (pools 100/100/0). -/
theorem c4_addOdds_wellFormed_witness :
    (addOdds { id := 101, sport := "Flag Football", home := "Welsh Fam Whirls",
               away := "Lewis Chicks", startTime := "", status := StatusPre,
               result := none, homePool := 100, awayPool := 100, drawPool := 0,
               homeOdds := 0, awayOdds := 0, drawOdds := 0 }).homeOdds +
    (addOdds { id := 101, sport := "Flag Football", home := "Welsh Fam Whirls",
               away := "Lewis Chicks", startTime := "", status := StatusPre,
               result := none, homePool := 100, awayPool := 100, drawPool := 0,
               homeOdds := 0, awayOdds := 0, drawOdds := 0 }).awayOdds +
    (addOdds { id := 101, sport := "Flag Football", home := "Welsh Fam Whirls",
               away := "Lewis Chicks", startTime := "", status := StatusPre,
               result := none, homePool := 100, awayPool := 100, drawPool := 0,
               homeOdds := 0, awayOdds := 0, drawOdds := 0 }).drawOdds = 1 :=
  ((c4_addOdds_wellFormed _ (by decide) (by decide) (by decide)).2 (by decide)).2.2.2

/-!  ## Settle: zero-winner-pool branch, success inversion -/

/-- When the winning pool is 0, a valid settlement stops before the
payout loop: the game is marked `Settled` with the result recorded, and
nothing else in the store changes. -/
theorem settle_zero_winner (s : Store) (gameID : Int) (r : Selection) (g : Game)
    (hg : findMap gameID s.games = some g) (hst : g.status ≠ StatusDone)
    (hwp : winnerPoolFor g r = 0) :
    settle s s.adminKey gameID r =
      ({ s with games :=
                  insertMap gameID
                    ({ g with status := StatusDone, result := some r }) s.games },
       Except.ok { g with status := StatusDone, result := some r }) := by
  simp [settle, hg, hst, hwp]

/-- A successful `settle` implies: the credential matched, the store's
credential is unchanged, the returned game is recorded at its id with
status `Settled`, and bets plus the bet counter are unchanged. -/
theorem settle_ok_inv (s : Store) (k : String) (gid : Int) (r : Selection)
    (s' : Store) (g' : Game) (h : settle s k gid r = (s', Except.ok g')) :
    k = s.adminKey ∧ s'.adminKey = s.adminKey ∧
    findMap gid s'.games = some g' ∧ g'.status = StatusDone ∧
    s'.bets = s.bets ∧ s'.nextBet = s.nextBet := by
  by_cases hk : k = s.adminKey
  · subst hk
    cases hg : findMap gid s.games with
    | none => simp [settle, hg] at h
    | some g =>
        by_cases hst : g.status = StatusDone
        · simp [settle, hg, hst] at h
        · by_cases hwp : winnerPoolFor g r = 0
          · simp [settle, hg, hst, hwp] at h
            obtain ⟨hs', hg'⟩ := h
            subst hs'
            subst hg'
            exact ⟨rfl, rfl, findMap_insertMap_self _ _ _, rfl, rfl, rfl⟩
          · simp [settle, hg, hst, hwp] at h
            obtain ⟨hs', hg'⟩ := h
            subst hs'
            subst hg'
            exact ⟨rfl, rfl, findMap_insertMap_self _ _ _, rfl, rfl, rfl⟩
  · simp [settle, hk] at h

/-!  ## C3 -/

/-- C3: a second `Settle` after a successful one (same credential, same
game) returns `AlreadySettled` with the store exactly as the first
settlement left it; and `Settle` with a credential different from the
configured admin secret returns `Forbidden` with the store unchanged (so
a `PreGame` game stays `PreGame`). -/
theorem c3_settle_repeat_and_wrong_credential (s : Store) (k k₂ : String)
    (gameID : Int) (r r₂ : Selection) :
    (∀ s' g', settle s k gameID r = (s', Except.ok g') →
        settle s' k gameID r₂ = (s', Except.error Err.alreadySettled)) ∧
    (k₂ ≠ s.adminKey → settle s k₂ gameID r = (s, Except.error Err.forbidden)) := by
  constructor
  · intro s' g' h
    obtain ⟨hk, hadm, hfind, hstat, -, -⟩ := settle_ok_inv _ _ _ _ _ _ h
    subst hk
    simp [settle, hadm, hfind, hstat]
  · intro hk
    simp [settle, hk]

/-- Witness for C3: settling seed game 101 twice with the admin key
`"letmein"` yields `AlreadySettled` the second time with the state of
the first settlement; the key `"guess"` is rejected with `Forbidden` and
no state change. -/
theorem c3_settle_repeat_and_wrong_credential_witness :
    settle (settle newStore "letmein" 101 SelHome).1 "letmein" 101 SelHome =
      ((settle newStore "letmein" 101 SelHome).1, Except.error Err.alreadySettled) ∧
    settle newStore "guess" 101 SelHome = (newStore, Except.error Err.forbidden) :=
  ⟨(c3_settle_repeat_and_wrong_credential newStore "letmein" "guess" 101 SelHome SelHome).1
      (settle newStore "letmein" 101 SelHome).1
      { game101 with status := StatusDone, result := some SelHome } (by decide),
   (c3_settle_repeat_and_wrong_credential newStore "letmein" "guess" 101 SelHome SelHome).2
      (by decide)⟩

/-!  ## C6 -/

/-- C6: a successful `Settle` on a game whose winning pool is 0 marks
the game `Settled`, records the result, and performs no payout: every
wallet balance (and the bet ledger) is exactly as before. -/
theorem c6_settle_zeroWinnerPool_no_payout (s : Store) (gameID : Int)
    (r : Selection) (g : Game)
    (hg : findMap gameID s.games = some g) (hst : g.status ≠ StatusDone)
    (hwp : winnerPoolFor g r = 0) :
    settle s s.adminKey gameID r =
      ({ s with games :=
                  insertMap gameID
                    ({ g with status := StatusDone, result := some r }) s.games },
       Except.ok { g with status := StatusDone, result := some r }) ∧
    (settle s s.adminKey gameID r).1.wallets = s.wallets ∧
    (settle s s.adminKey gameID r).1.bets = s.bets := by
  have h := settle_zero_winner s gameID r g hg hst hwp
  refine ⟨h, ?_, ?_⟩ <;> rw [h]

/-- Witness for C6: seed game 101 has `drawPool = 0`, so settling it as
a draw pays nobody and leaves wallet 1 at its 1000 tokens. -/
theorem c6_settle_zeroWinnerPool_no_payout_witness :
    (settle newStore newStore.adminKey 101 SelDraw).1.wallets = newStore.wallets ∧
    (settle newStore newStore.adminKey 101 SelDraw).2 =
      Except.ok { game101 with status := StatusDone, result := some SelDraw } :=
  ⟨(c6_settle_zeroWinnerPool_no_payout newStore 101 SelDraw game101 rfl
      (by decide) rfl).2.1,
   by rw [(c6_settle_zeroWinnerPool_no_payout newStore 101 SelDraw game101 rfl
      (by decide) rfl).1]⟩

/-!  ## C9 -/

/-- C9: `Settle` with a valid credential on an existing `PreGame` game
and a result outside `home`/`away`/`draw` is NOT rejected: it succeeds,
marks the game `Settled`, stores the arbitrary result string, and — the
winner-pool switch matching no case — credits no wallet, forfeiting the
whole pool. -/
theorem c9_settle_unknown_result_forfeits_pool (s : Store) (gameID : Int)
    (r : Selection) (g : Game)
    (hr1 : r ≠ SelHome) (hr2 : r ≠ SelAway) (hr3 : r ≠ SelDraw)
    (hg : findMap gameID s.games = some g) (hst : g.status ≠ StatusDone) :
    settle s s.adminKey gameID r =
      ({ s with games :=
                  insertMap gameID
                    ({ g with status := StatusDone, result := some r }) s.games },
       Except.ok { g with status := StatusDone, result := some r }) ∧
    (settle s s.adminKey gameID r).1.wallets = s.wallets ∧
    findMap gameID (settle s s.adminKey gameID r).1.games =
      some { g with status := StatusDone, result := some r } := by
  have hwp : winnerPoolFor g r = 0 := by simp [winnerPoolFor, hr1, hr2, hr3]
  have h := settle_zero_winner s gameID r g hg hst hwp
  refine ⟨h, ?_, ?_⟩ <;> rw [h]
  exact findMap_insertMap_self _ _ _

/-- Witness for C9: settling seed game 102 with result `"postponed"`
succeeds, records `"postponed"`, and leaves wallet 1 untouched. -/
theorem c9_settle_unknown_result_forfeits_pool_witness :
    (settle newStore newStore.adminKey 102 "postponed").1.wallets = newStore.wallets ∧
    findMap 102 (settle newStore newStore.adminKey 102 "postponed").1.games =
      some { game102 with status := StatusDone, result := some "postponed" } :=
  ⟨(c9_settle_unknown_result_forfeits_pool newStore 102 "postponed" game102
      (by decide) (by decide) (by decide) rfl (by decide)).2.1,
   (c9_settle_unknown_result_forfeits_pool newStore 102 "postponed" game102
      (by decide) (by decide) (by decide) rfl (by decide)).2.2⟩

/-!  ## PlaceBet: success and error inversion -/

theorem selAway_ne_selHome : SelAway ≠ SelHome := by decide

theorem selDraw_ne_selHome : SelDraw ≠ SelHome := by decide

theorem selDraw_ne_selAway : SelDraw ≠ SelAway := by decide

/-- Characterization of a successful `placeBet`: all five guards passed,
the selection is one of the three outcomes, and the new store is the old
one with the debited wallet, the selected pool grown by the stake, the
new bet recorded at the current counter, and the counter advanced. -/
theorem placeBet_ok_inv (s : Store) (u gid : Int) (sel : Selection) (st : Int)
    (s' : Store) (b : Bet) (w : Wallet) (g : Game)
    (h : placeBet s u gid sel st = (s', Except.ok (b, w, g))) :
    ∃ w0 g0, findMap u s.wallets = some w0 ∧ 0 < st ∧ st ≤ w0.balance ∧
      findMap gid s.games = some g0 ∧ g0.status ≠ StatusDone ∧
      w = { w0 with balance := w0.balance - st } ∧
      b = { id := s.nextBet, userID := u, gameID := gid, selection := sel,
            stake := st, placedAt := "" } ∧
      ((sel = SelHome ∧ g = { g0 with homePool := g0.homePool + st }) ∨
       (sel = SelAway ∧ g = { g0 with awayPool := g0.awayPool + st }) ∨
       (sel = SelDraw ∧ g = { g0 with drawPool := g0.drawPool + st })) ∧
      s' = { s with wallets := insertMap u w s.wallets,
                    games := insertMap gid g s.games,
                    bets := insertMap s.nextBet b s.bets,
                    nextBet := s.nextBet + 1 } := by
  cases hw : findMap u s.wallets with
  | none => simp [placeBet, hw] at h
  | some w0 =>
      by_cases h1 : st ≤ 0
      · simp [placeBet, hw, h1] at h
      · by_cases h2 : w0.balance < st
        · simp [placeBet, hw, h1, h2] at h
        · cases hg : findMap gid s.games with
          | none => simp [placeBet, hw, h1, h2, hg] at h
          | some g0 =>
              by_cases h3 : g0.status = StatusDone
              · simp [placeBet, hw, h1, h2, hg, h3] at h
              · refine ⟨w0, g0, rfl, by omega, by omega, rfl, h3, ?_⟩
                by_cases h4 : sel = SelHome
                · subst h4
                  simp [placeBet, hw, h1, h2, hg, h3, finishBet] at h
                  obtain ⟨hs', hb, hw', hg'⟩ := h
                  subst hs'; subst hb; subst hw'; subst hg'
                  exact ⟨rfl, rfl, Or.inl ⟨rfl, rfl⟩, rfl⟩
                · by_cases h5 : sel = SelAway
                  · subst h5
                    simp [placeBet, hw, h1, h2, hg, h3, selAway_ne_selHome,
                          finishBet] at h
                    obtain ⟨hs', hb, hw', hg'⟩ := h
                    subst hs'; subst hb; subst hw'; subst hg'
                    exact ⟨rfl, rfl, Or.inr (Or.inl ⟨rfl, rfl⟩), rfl⟩
                  · by_cases h6 : sel = SelDraw
                    · subst h6
                      simp [placeBet, hw, h1, h2, hg, h3, selDraw_ne_selHome,
                            selDraw_ne_selAway, finishBet] at h
                      obtain ⟨hs', hb, hw', hg'⟩ := h
                      subst hs'; subst hb; subst hw'; subst hg'
                      exact ⟨rfl, rfl, Or.inr (Or.inr ⟨rfl, rfl⟩), rfl⟩
                    · simp [placeBet, hw, h1, h2, hg, h3, h4, h5, h6] at h

/-- On every error return of `placeBet`, the bet map, the bet counter
and the games map are unchanged, and every wallet that existed still
exists (the `bad_selection` branch rewrites one wallet's balance but
removes none). -/
theorem placeBet_err_state (s : Store) (u gid : Int) (sel : Selection)
    (st : Int) (e : Err)
    (h : (placeBet s u gid sel st).2 = Except.error e) :
    (placeBet s u gid sel st).1.bets = s.bets ∧
    (placeBet s u gid sel st).1.nextBet = s.nextBet ∧
    (placeBet s u gid sel st).1.games = s.games ∧
    ∀ k, (findMap k s.wallets).isSome = true →
      (findMap k (placeBet s u gid sel st).1.wallets).isSome = true := by
  cases hw : findMap u s.wallets with
  | none => simp [placeBet, hw]
  | some w0 =>
      by_cases h1 : st ≤ 0
      · simp [placeBet, hw, h1]
      · by_cases h2 : w0.balance < st
        · simp [placeBet, hw, h1, h2]
        · cases hg : findMap gid s.games with
          | none => simp [placeBet, hw, h1, h2, hg]
          | some g0 =>
              by_cases h3 : g0.status = StatusDone
              · simp [placeBet, hw, h1, h2, hg, h3]
              · by_cases h4 : sel = SelHome
                · subst h4
                  simp [placeBet, hw, h1, h2, hg, h3, finishBet] at h
                · by_cases h5 : sel = SelAway
                  · subst h5
                    simp [placeBet, hw, h1, h2, hg, h3, selAway_ne_selHome,
                          finishBet] at h
                  · by_cases h6 : sel = SelDraw
                    · subst h6
                      simp [placeBet, hw, h1, h2, hg, h3, selDraw_ne_selHome,
                            selDraw_ne_selAway, finishBet] at h
                    · refine ⟨?_, ?_, ?_, ?_⟩ <;>
                        simp [placeBet, hw, h1, h2, hg, h3, h4, h5, h6]
                      intro k hk
                      exact isSome_findMap_insertMap _ _ _ _ hk

/-!  ## C5 -/

/-- The `Except` result of `placeBet`, reduced to its error component. -/
def errOf : Except Err (Bet × Wallet × Game) → Option Err
  | Except.error e => some e
  | Except.ok _ => none

/-- Modelled from the spec (§4.2): the first violated precondition of
`PlaceBet` in the spec's stated order — `UserNotFound`, `InvalidStake`,
`InsufficientBalance`, `GameNotFound`, `GameAlreadySettled`,
`InvalidSelection` — or `none` when all six preconditions hold.  This
definition follows the spec's words; the claim compares it with the
error actually produced by the source's `placeBet`. -/
def placeBetSpecError (s : Store) (userID gameID : Int) (sel : Selection)
    (stake : Int) : Option Err :=
  match findMap userID s.wallets with
  | none => some Err.userNotFound
  | some w =>
    if stake ≤ 0 then some Err.badStake
    else if w.balance < stake then some Err.insufficientBalance
    else
      match findMap gameID s.games with
      | none => some Err.gameNotFound
      | some g =>
        if g.status = StatusDone then some Err.gameSettled
        else if sel = SelHome ∨ sel = SelAway ∨ sel = SelDraw then none
        else some Err.badSelection

/-- C5: on every input, the error returned by `placeBet` (or `none` on
success) is exactly the first violated precondition in the spec's order
`UserNotFound` → `InvalidStake` → `InsufficientBalance` → `GameNotFound`
→ `GameAlreadySettled` → `InvalidSelection`; in particular, when several
preconditions are violated the earliest one in this order wins. -/
theorem c5_placeBet_error_order (s : Store) (u gid : Int) (sel : Selection)
    (st : Int) :
    errOf (placeBet s u gid sel st).2 = placeBetSpecError s u gid sel st := by
  cases hw : findMap u s.wallets with
  | none => simp [placeBet, placeBetSpecError, errOf, hw]
  | some w0 =>
      by_cases h1 : st ≤ 0
      · simp [placeBet, placeBetSpecError, errOf, hw, h1]
      · by_cases h2 : w0.balance < st
        · simp [placeBet, placeBetSpecError, errOf, hw, h1, h2]
        · cases hg : findMap gid s.games with
          | none => simp [placeBet, placeBetSpecError, errOf, hw, h1, h2, hg]
          | some g0 =>
              by_cases h3 : g0.status = StatusDone
              · simp [placeBet, placeBetSpecError, errOf, hw, h1, h2, hg, h3]
              · by_cases h4 : sel = SelHome
                · subst h4
                  simp [placeBet, placeBetSpecError, errOf, hw, h1, h2, hg, h3,
                        finishBet]
                · by_cases h5 : sel = SelAway
                  · subst h5
                    simp [placeBet, placeBetSpecError, errOf, hw, h1, h2, hg,
                          h3, selAway_ne_selHome, finishBet]
                  · by_cases h6 : sel = SelDraw
                    · subst h6
                      simp [placeBet, placeBetSpecError, errOf, hw, h1, h2, hg,
                            h3, selDraw_ne_selHome, selDraw_ne_selAway,
                            finishBet]
                    · simp [placeBet, placeBetSpecError, errOf, hw, h1, h2, hg,
                            h3, h4, h5, h6]

/-!  ## C8 -/

/-- C8: bet-id freshness.  A failed `placeBet` never consumes an id (the
counter is unchanged on every error return); a successful one assigns
the current counter as the bet's id and advances the counter by one; and
whenever all recorded ids are below the counter (as in every reachable
store), the fresh id differs from every recorded id and the bound is
preserved, so ids are never reused. -/
theorem c8_bet_ids_fresh (s : Store) (u gid : Int) (sel : Selection) (st : Int) :
    (∀ e, (placeBet s u gid sel st).2 = Except.error e →
        (placeBet s u gid sel st).1.nextBet = s.nextBet) ∧
    (∀ s' b w g, placeBet s u gid sel st = (s', Except.ok (b, w, g)) →
        b.id = s.nextBet ∧ s'.nextBet = s.nextBet + 1) ∧
    ((∀ p ∈ s.bets, p.2.id < s.nextBet) →
      ∀ s' b w g, placeBet s u gid sel st = (s', Except.ok (b, w, g)) →
        (∀ p ∈ s.bets, p.2.id ≠ b.id) ∧
        (∀ p ∈ s'.bets, p.2.id < s'.nextBet)) := by
  refine ⟨?_, ?_, ?_⟩
  · intro e he
    exact (placeBet_err_state s u gid sel st e he).2.1
  · intro s' b w g h
    obtain ⟨w0, g0, -, -, -, -, -, -, hb, -, hs'⟩ :=
      placeBet_ok_inv s u gid sel st s' b w g h
    subst hs'
    exact ⟨by rw [hb], rfl⟩
  · intro hbound s' b w g h
    obtain ⟨w0, g0, -, -, -, -, -, -, hb, -, hs'⟩ :=
      placeBet_ok_inv s u gid sel st s' b w g h
    have hbid : b.id = s.nextBet := by rw [hb]
    have hnb : s'.nextBet = s.nextBet + 1 := by rw [hs']
    have hbets : s'.bets = insertMap s.nextBet b s.bets := by rw [hs']
    constructor
    · intro p hp
      have := hbound p hp
      omega
    · intro p hp
      rw [hbets] at hp
      rw [hnb]
      rcases mem_insertMap _ _ _ _ hp with hnew | hold
      · have hpe : p.2.id = s.nextBet := by rw [hnew, hb]
        omega
      · have := hbound p hold
        omega

/-- Witness for C8 at the seeded store: betting 100 on game 101's home
team creates bet id 1 and moves the counter to 2; a rejected stake of 0
leaves the counter at 1. -/
theorem c8_bet_ids_fresh_witness :
    (placeBet newStore 1 101 SelHome 0).1.nextBet = 1 ∧
    ((placeBet newStore 1 101 SelHome 100).2 =
      Except.ok ({ id := 1, userID := 1, gameID := 101, selection := SelHome,
                   stake := 100, placedAt := "" },
                 { userID := 1, balance := 900 },
                 { game101 with homePool := 200 }) →
      (placeBet newStore 1 101 SelHome 100).1.nextBet = 2) :=
  ⟨(c8_bet_ids_fresh newStore 1 101 SelHome 0).1 Err.badStake (by decide),
   fun h =>
     ((c8_bet_ids_fresh newStore 1 101 SelHome 100).2.1
        (placeBet newStore 1 101 SelHome 100).1
        { id := 1, userID := 1, gameID := 101, selection := SelHome,
          stake := 100, placedAt := "" }
        { userID := 1, balance := 900 }
        { game101 with homePool := 200 }
        (by rw [show (placeBet newStore 1 101 SelHome 100) =
            ((placeBet newStore 1 101 SelHome 100).1,
             (placeBet newStore 1 101 SelHome 100).2) from rfl, h])).2⟩

/-!  ## C7 -/

/-- A `PlaceBet` request as supplied by a caller. -/
structure PlaceReq where
  userID : Int
  gameID : Int
  selection : Selection
  stake : Int
deriving DecidableEq, Repr

/-- Run a sequence of `placeBet` calls, threading the store. -/
def runPlace (s : Store) : List PlaceReq → Store
  | [] => s
  | r :: rs => runPlace (placeBet s r.userID r.gameID r.selection r.stake).1 rs

/-- `true` iff every call in the sequence succeeds when run in order. -/
def allOk (s : Store) : List PlaceReq → Bool
  | [] => true
  | r :: rs =>
      match placeBet s r.userID r.gameID r.selection r.stake with
      | (s1, Except.ok _) => allOk s1 rs
      | (_, Except.error _) => false

/-- Total stake the request list asks user `u` to put down. -/
def sumStakesBy (u : Int) : List PlaceReq → Int
  | [] => 0
  | r :: rs => (if r.userID = u then r.stake else 0) + sumStakesBy u rs

/-- Over a sequence of successful `placeBet` calls, each existing wallet
ends with its balance decreased by exactly the sum of that user's
stakes. -/
theorem runPlace_balance (rs : List PlaceReq) : ∀ s : Store,
    allOk s rs = true → ∀ u w, findMap u s.wallets = some w →
    findMap u (runPlace s rs).wallets =
      some { w with balance := w.balance - sumStakesBy u rs } := by
  induction rs with
  | nil =>
      intro s _ u w hw
      simp only [runPlace, sumStakesBy, sub_zero]
      exact hw
  | cons r rs ih =>
      intro s hok u w hw
      cases hres : placeBet s r.userID r.gameID r.selection r.stake with
      | mk s1 res =>
          cases res with
          | error e =>
              rw [allOk, hres] at hok
              simp at hok
          | ok v =>
              obtain ⟨b, wret, gret⟩ := v
              have hok' : allOk s1 rs = true := by
                rw [allOk, hres] at hok
                exact hok
              obtain ⟨w0, g0, hw0, -, -, -, -, hwret, -, -, hs'⟩ :=
                placeBet_ok_inv _ _ _ _ _ _ _ _ _ hres
              have hrun : runPlace s (r :: rs) = runPlace s1 rs := by
                rw [runPlace, hres]
              rw [hrun, sumStakesBy]
              by_cases hu : r.userID = u
              · subst hu
                rw [hw0] at hw
                have hww : w0 = w := Option.some.inj hw
                subst hww
                have hfind1 : findMap r.userID s1.wallets = some wret := by
                  rw [hs']
                  exact findMap_insertMap_self _ _ _
                have hres1 := ih s1 hok' r.userID wret hfind1
                rw [hres1, hwret]
                simp [sub_sub]
              · have hfind1 : findMap u s1.wallets = some w := by
                  rw [hs']
                  rw [show ({ s with
                        wallets := insertMap r.userID wret s.wallets,
                        games := insertMap r.gameID gret s.games,
                        bets := insertMap s.nextBet b s.bets,
                        nextBet := s.nextBet + 1 } : Store).wallets =
                      insertMap r.userID wret s.wallets from rfl]
                  rw [findMap_insertMap_ne _ _ _ _ hu]
                  exact hw
                have hres1 := ih s1 hok' u w hfind1
                rw [hres1]
                simp [hu]

/-- C7: for every sequence of `PlaceBet` calls that all succeed (no
intervening `Settle`), each user's wallet balance decreases by exactly
the sum of that user's stakes in the sequence; and each successful call
adds exactly its stake to the pool matching its selection, leaving the
other two pools unchanged. -/
theorem c7_balance_conservation (s : Store) (rs : List PlaceReq)
    (hok : allOk s rs = true) :
    (∀ u w, findMap u s.wallets = some w →
      findMap u (runPlace s rs).wallets =
        some { w with balance := w.balance - sumStakesBy u rs }) ∧
    (∀ s₀ u gid sel st s' b w g,
      placeBet s₀ u gid sel st = (s', Except.ok (b, w, g)) →
      ∃ g0, findMap gid s₀.games = some g0 ∧ findMap gid s'.games = some g ∧
        ((sel = SelHome ∧ g = { g0 with homePool := g0.homePool + st }) ∨
         (sel = SelAway ∧ g = { g0 with awayPool := g0.awayPool + st }) ∨
         (sel = SelDraw ∧ g = { g0 with drawPool := g0.drawPool + st }))) := by
  constructor
  · exact fun u w hw => runPlace_balance rs s hok u w hw
  · intro s₀ u gid sel st s' b w g h
    obtain ⟨w0, g0, -, -, -, hg0, -, -, -, hsel, hs'⟩ :=
      placeBet_ok_inv _ _ _ _ _ _ _ _ _ h
    refine ⟨g0, hg0, ?_, hsel⟩
    rw [hs']
    exact findMap_insertMap_self _ _ _

/-- Witness for C7: user 1 bets 100 on game 101 (home) and 50 on game
102 (away); both succeed and the wallet ends at 1000 - 150 = 850. -/
theorem c7_balance_conservation_witness :
    allOk newStore
        [ { userID := 1, gameID := 101, selection := SelHome, stake := 100 },
          { userID := 1, gameID := 102, selection := SelAway, stake := 50 } ] = true ∧
    findMap 1 (runPlace newStore
        [ { userID := 1, gameID := 101, selection := SelHome, stake := 100 },
          { userID := 1, gameID := 102, selection := SelAway, stake := 50 } ]).wallets =
      some { userID := 1, balance := 850 } := by
  refine ⟨by decide, ?_⟩
  rw [(c7_balance_conservation newStore
        [ { userID := 1, gameID := 101, selection := SelHome, stake := 100 },
          { userID := 1, gameID := 102, selection := SelAway, stake := 50 } ]
        (by decide)).1 1 { userID := 1, balance := 1000 } rfl]
  decide

/-!  ## C10 -/

/-- The payout loop never removes a wallet: any key present in the
wallets map before the loop is still present after it. -/
theorem settleLoop_isSome (gid : Int) (r : Selection) (wp t : Int) :
    ∀ (bets : List (Int × Bet)) (ws : List (Int × Wallet)) (k : Int),
    (findMap k ws).isSome = true →
    (findMap k (settleLoop gid r wp t bets ws)).isSome = true := by
  intro bets
  induction bets with
  | nil =>
      intro ws k h
      simpa [settleLoop] using h
  | cons p rest ih =>
      obtain ⟨i, b⟩ := p
      intro ws k h
      by_cases hb1 : b.gameID = gid
      · by_cases hb2 : b.selection = r
        · cases hwm : findMap b.userID ws with
          | none => simpa [settleLoop, hb1, hb2, hwm] using ih ws k h
          | some wb =>
              have h2 := isSome_findMap_insertMap k b.userID
                { wb with balance := wb.balance + payout b.stake wp t } ws h
              simpa [settleLoop, hb1, hb2, hwm] using ih _ k h2
        · simpa [settleLoop, hb1, hb2] using ih ws k h
      · simpa [settleLoop, hb1] using ih ws k h

/-- `settle` never touches the bet map and never removes a wallet. -/
theorem settle_preserve (s : Store) (k : String) (gid : Int) (r : Selection) :
    (settle s k gid r).1.bets = s.bets ∧
    ∀ key, (findMap key s.wallets).isSome = true →
      (findMap key (settle s k gid r).1.wallets).isSome = true := by
  by_cases hk : k = s.adminKey
  · cases hg : findMap gid s.games with
    | none => simp [settle, hk, hg]
    | some g =>
        by_cases hst : g.status = StatusDone
        · simp [settle, hk, hg, hst]
        · by_cases hwp : winnerPoolFor g r = 0
          · simp [settle, hk, hg, hst, hwp]
          · constructor
            · simp [settle, hk, hg, hst, hwp]
            · intro key h
              have hred : (settle s k gid r).1.wallets =
                  settleLoop gid r (winnerPoolFor g r)
                    (g.homePool + g.awayPool + g.drawPool) s.bets s.wallets := by
                simp [settle, hk, hg, hst, hwp]
              rw [hred]
              exact settleLoop_isSome _ _ _ _ _ _ _ h
  · simp [settle, hk]

/-- The states reachable from the seeded store by any interleaving of
`placeBet` and `settle` calls (successful or not). -/
inductive Reachable : Store → Prop
  | init : Reachable newStore
  | place (s : Store) (u gid : Int) (sel : Selection) (st : Int) :
      Reachable s → Reachable (placeBet s u gid sel st).1
  | settled (s : Store) (k : String) (gid : Int) (r : Selection) :
      Reachable s → Reachable (settle s k gid r).1

/-- C10: in every reachable ledger state, the `userID` of every recorded
bet maps to an existing wallet — so the unguarded wallet lookup in
`settle`'s payout loop never fails and every credit lands in an existing
wallet. -/
theorem c10_bets_have_wallets (s : Store) (h : Reachable s) :
    ∀ p ∈ s.bets, (findMap p.2.userID s.wallets).isSome = true := by
  induction h with
  | init => intro p hp; simp [newStore] at hp
  | place s u gid sel st hr ih =>
      intro p hp
      cases hres2 : (placeBet s u gid sel st).2 with
      | error e =>
          obtain ⟨hbets, -, -, hws⟩ := placeBet_err_state s u gid sel st e hres2
          rw [hbets] at hp
          exact hws _ (ih p hp)
      | ok v =>
          obtain ⟨b, w, g⟩ := v
          have hres : placeBet s u gid sel st =
              ((placeBet s u gid sel st).1, Except.ok (b, w, g)) := by
            rw [← hres2]
          obtain ⟨w0, g0, hw0, -, -, -, -, -, hb, -, hs'⟩ :=
            placeBet_ok_inv _ _ _ _ _ _ _ _ _ hres
          rw [hs'] at hp ⊢
          rcases mem_insertMap _ _ _ _ hp with hnew | hold
          · rw [hnew]
            have hbu : b.userID = u := by rw [hb]
            show (findMap b.userID (insertMap u w s.wallets)).isSome = true
            rw [hbu, findMap_insertMap_self]
            rfl
          · show (findMap p.2.userID (insertMap u w s.wallets)).isSome = true
            exact isSome_findMap_insertMap _ _ _ _ (ih p hold)
  | settled s k gid r hr ih =>
      intro p hp
      obtain ⟨hbets, hws⟩ := settle_preserve s k gid r
      rw [hbets] at hp
      exact hws _ (ih p hp)

/-- Witness for C10 one step from the seeded store: after user 1's bet
on game 101, the recorded bet's user still has a wallet. -/
theorem c10_bets_have_wallets_witness :
    (findMap 1 (placeBet newStore 1 101 SelHome 100).1.wallets).isSome = true :=
  c10_bets_have_wallets _ (Reachable.place newStore 1 101 SelHome 100 Reachable.init)
    (1, { id := 1, userID := 1, gameID := 101, selection := SelHome,
          stake := 100, placedAt := "" })
    (by decide)

/-!  ## C2 -/

/-- Sum of the payouts owed to user `u` by the winning bets on game
`gid` in the list (bets on other games or selections contribute 0). -/
def betsWinSum (gid : Int) (r : Selection) (u wp t : Int) :
    List (Int × Bet) → Int
  | [] => 0
  | (_, b) :: rest =>
      (if b.gameID = gid ∧ b.selection = r ∧ b.userID = u
       then payout b.stake wp t else 0) + betsWinSum gid r u wp t rest

/-- The payout loop credits each existing wallet by exactly the sum of
the payouts of that user's winning bets. -/
theorem settleLoop_balance (gid : Int) (r : Selection) (wp t : Int) :
    ∀ (bets : List (Int × Bet)) (ws : List (Int × Wallet)),
    (∀ p ∈ bets, (findMap p.2.userID ws).isSome = true) →
    ∀ u w, findMap u ws = some w →
    findMap u (settleLoop gid r wp t bets ws) =
      some { w with balance := w.balance + betsWinSum gid r u wp t bets } := by
  intro bets
  induction bets with
  | nil =>
      intro ws _ u w hw
      simp only [settleLoop, betsWinSum, add_zero]
      exact hw
  | cons p rest ih =>
      obtain ⟨i, b⟩ := p
      intro ws hall u w hw
      have halltail : ∀ q ∈ rest, (findMap q.2.userID ws).isSome = true :=
        fun q hq => hall q (List.mem_cons_of_mem _ hq)
      by_cases hb1 : b.gameID = gid
      · by_cases hb2 : b.selection = r
        · have hhead : (findMap b.userID ws).isSome = true :=
            hall (i, b) (List.mem_cons_self _ _)
          obtain ⟨wb, hwb⟩ := Option.isSome_iff_exists.mp hhead
          have hstep : settleLoop gid r wp t ((i, b) :: rest) ws =
              settleLoop gid r wp t rest
                (insertMap b.userID
                  { wb with balance := wb.balance + payout b.stake wp t } ws) := by
            simp [settleLoop, hb1, hb2, hwb]
          have hall' : ∀ q ∈ rest,
              (findMap q.2.userID
                (insertMap b.userID
                  { wb with balance := wb.balance + payout b.stake wp t } ws)).isSome
                = true :=
            fun q hq => isSome_findMap_insertMap _ _ _ _ (halltail q hq)
          by_cases hu : b.userID = u
          · subst hu
            rw [hwb] at hw
            have hww : wb = w := Option.some.inj hw
            subst hww
            rw [hstep]
            have hres1 := ih _ hall' b.userID
              { wb with balance := wb.balance + payout b.stake wp t }
              (findMap_insertMap_self _ _ _)
            rw [hres1, betsWinSum]
            simp [hb1, hb2, add_assoc]
          · rw [hstep]
            have hfind1 : findMap u
                (insertMap b.userID
                  { wb with balance := wb.balance + payout b.stake wp t } ws) =
                some w := by
              rw [findMap_insertMap_ne _ _ _ _ hu]
              exact hw
            rw [ih _ hall' u w hfind1, betsWinSum]
            simp [hu]
        · have hstep : settleLoop gid r wp t ((i, b) :: rest) ws =
              settleLoop gid r wp t rest ws := by
            simp [settleLoop, hb1, hb2]
          rw [hstep, ih ws halltail u w hw, betsWinSum]
          simp [hb2]
      · have hstep : settleLoop gid r wp t ((i, b) :: rest) ws =
            settleLoop gid r wp t rest ws := by
          simp [settleLoop, hb1]
        rw [hstep, ih ws halltail u w hw, betsWinSum]
        simp [hb1]

/-- C2 (amended): when `Settle` succeeds with a positive winning pool,
every wallet is credited by exactly the sum, over that user's bets on
the settled game with `selection == result`, of the float64-computed
payout `int64(float64(stake)/float64(winner_pool) * float64(total))`
(the value of `payout`, which double rounding can push below the exact
`⌊(stake/winner_pool)·total⌋`); bets on other selections contribute
nothing. -/
theorem c2_settle_proportional_payout (s : Store) (gid : Int) (r : Selection)
    (g : Game)
    (hg : findMap gid s.games = some g) (hst : g.status ≠ StatusDone)
    (hwp : 0 < winnerPoolFor g r)
    (hall : ∀ p ∈ s.bets, (findMap p.2.userID s.wallets).isSome = true) :
    ∀ u w, findMap u s.wallets = some w →
      findMap u (settle s s.adminKey gid r).1.wallets =
        some { w with
                balance := w.balance +
                             betsWinSum gid r u (winnerPoolFor g r)
                               (g.homePool + g.awayPool + g.drawPool) s.bets } := by
  intro u w hw
  have hwpne : winnerPoolFor g r ≠ 0 := by omega
  have hred : (settle s s.adminKey gid r).1.wallets =
      settleLoop gid r (winnerPoolFor g r)
        (g.homePool + g.awayPool + g.drawPool) s.bets s.wallets := by
    simp [settle, hg, hst, hwpne]
  rw [hred]
  exact settleLoop_balance _ _ _ _ s.bets s.wallets hall u w hw

set_option maxRecDepth 100000 in
set_option maxHeartbeats 2000000 in
/-- Counterexample to C2 as stated: from the seeded store, 49 stake-1
draw bets and one stake-45 home bet on game 101 (all successful) give
pools 145/100/49, wallet 1 at 906, total 294.  Settling draw succeeds
with winner pool 49 > 0, but each stake-1 winning bet is credited
`int64((1.0/49.0) * 294.0) = 5` — the double product is
5.999999999999999… — not the exact `⌊(1/49)·294⌋ = 6`: wallet 1 ends at
906 + 49·5 = 1151 where the claim's formula predicts 906 + 49·6 =
1200. -/
theorem c2_settle_proportional_payout_counterexample :
    payout 1 49 294 = 5 ∧
    Int.ediv (1 * 294) 49 = 6 ∧
    allOk newStore
      (List.replicate 49
        ({ userID := 1, gameID := 101, selection := SelDraw, stake := 1 } : PlaceReq) ++
       [{ userID := 1, gameID := 101, selection := SelHome, stake := 45 }]) = true ∧
    findMap 1 (runPlace newStore
      (List.replicate 49
        ({ userID := 1, gameID := 101, selection := SelDraw, stake := 1 } : PlaceReq) ++
       [{ userID := 1, gameID := 101, selection := SelHome, stake := 45 }])).wallets =
      some { userID := 1, balance := 906 } ∧
    (settle (runPlace newStore
      (List.replicate 49
        ({ userID := 1, gameID := 101, selection := SelDraw, stake := 1 } : PlaceReq) ++
       [{ userID := 1, gameID := 101, selection := SelHome, stake := 45 }]))
      "letmein" 101 SelDraw).2 =
      Except.ok { game101 with homePool := 145, drawPool := 49,
                               status := StatusDone, result := some SelDraw } ∧
    findMap 1 (settle (runPlace newStore
      (List.replicate 49
        ({ userID := 1, gameID := 101, selection := SelDraw, stake := 1 } : PlaceReq) ++
       [{ userID := 1, gameID := 101, selection := SelHome, stake := 45 }]))
      "letmein" 101 SelDraw).1.wallets =
      some { userID := 1, balance := 1151 } ∧
    (906 : Int) + 49 * Int.ediv (1 * 294) 49 = 1200 := by
  refine ⟨by decide, by decide, by decide, by decide, by decide, by decide, by decide⟩

/-- Witness for C2 (amended), the §8 scenario: user 1 stakes 100 on home
for game 101 (pools become 200/100/0, wallet 900); here the float64
computation is exact, `int64((100.0/200.0)*300.0) = 150`, and the wallet
ends at 1050. -/
theorem c2_settle_proportional_payout_witness :
    findMap 1 (settle (placeBet newStore 1 101 SelHome 100).1
        "letmein" 101 SelHome).1.wallets =
      some { userID := 1, balance := 1050 } := by
  have h := c2_settle_proportional_payout
      (placeBet newStore 1 101 SelHome 100).1 101 SelHome
      { game101 with homePool := 200 }
      (by decide) (by decide) (by decide) (by decide)
      1 { userID := 1, balance := 900 } (by decide)
  rw [show ("letmein" : String) =
      ((placeBet newStore 1 101 SelHome 100).1).adminKey from rfl]
  rw [h]
  decide

end Handler
